import Mathlib

/-!
Verification of the chainsafe optional-chaining rewriter (`src/index.js`)
against its natural-language design document.

The repository is a codemod that inserts `?.` tokens into
JavaScript/TypeScript source text.  The algorithmic core embedded here is:

* the Skip/Apply Policy (`State.shouldSkip`, index.js lines 50–83);
* the Patch Applier (the descending-offset splice loop, lines 283–295);
* the Fixed-Point Driver (the iteration loop of `processFile`, lines 327–340);
* the Member-Access Decision Engine (the `MemberExpression` visitor body of
  `addOptionalChaining`, lines 138–280);
* the configuration phase of `main` (lines 408–468), i.e. everything that
  runs before the first file-system access.

The grammar parser and AST traversal (`@babel/parser` / `@babel/traverse`)
are external collaborators: per the design document they only deliver an
AST with node offsets and scope/binding queries.  Concrete programs are
therefore represented by the data the parser hands the visitor: the list of
member-expression occurrences (node shape, ancestor chain, property-token
offsets) together with a name → binding map.  Source text is `List Char`,
character offsets are `Nat`.
-/

namespace Chainsafe

/-! ## Skip/Apply Policy — `State` (index.js lines 50–83) -/

/-- The three name sets of `State` that `shouldSkip` consults:
`this.builtInGlobals`, `this.applyOnlySet`, `this.skipOnlySet`. -/
structure SkipState where
  builtInGlobals : List String
  applyOnlySet : List String
  skipOnlySet : List String
deriving DecidableEq

/-- `DEFAULT_CONFIG.builtInGlobals` (index.js lines 15–21): the 23 names of
the default skip set. -/
def defaultBuiltInGlobals : List String :=
  ["Array", "Object", "String", "Number", "Boolean",
   "Date", "Math", "JSON", "RegExp", "Error",
   "Map", "Set", "WeakMap", "WeakSet", "Symbol",
   "Promise", "Proxy", "Reflect", "BigInt",
   "Function", "console", "Buffer", "process"]

/-- `new State()`: default globals, empty apply-only and skip-only sets. -/
def initialState : SkipState :=
  ⟨defaultBuiltInGlobals, [], []⟩

/-- The state after `--skip-none` alone: `state.builtInGlobals.clear()`
(index.js lines 424–427), both lists untouched (empty). -/
def skipNoneState : SkipState :=
  ⟨[], [], []⟩

/-- `State.shouldSkip(name)` (index.js lines 65–74).  The JS argument may be
`undefined` (modelled `none`) or the empty string; both are falsy and give
`false` at line 66.  `size > 0` on a JS `Set` is emptiness of the list. -/
def shouldSkip (st : SkipState) (name : Option String) : Bool :=
  match name with
  | none => false
  | some n =>
    if n = "" then false
    else if st.applyOnlySet ≠ [] then !(st.applyOnlySet.contains n)
    else if st.skipOnlySet ≠ [] then st.skipOnlySet.contains n
    else st.builtInGlobals.contains n

/-! ## Patch Applier (index.js lines 283–295)

```
const positions = Array.from(insertPositions).sort((a, b) => b - a);
let result = code;
for (const pos of positions) {
  result = result.slice(0, pos) +
    (result.slice(pos, pos + 1) !== '.' ? '?.' : '?') +
    result.slice(pos);
}
```

`insertPositions` is a JS `Set`, modelled as a duplicate-free `List Nat`
(insertion order); `.sort((a, b) => b - a)` sorts descending. -/

/-- One loop body iteration: splice `?.` (or `?` when the character at `pos`
is already `.`) into `result` at `pos`.  `slice(pos, pos+1)` is
`(result.drop pos).take 1`; `slice(0, pos)`/`slice(pos)` are `take`/`drop`. -/
def applyInsertion (result : List Char) (pos : Nat) : List Char :=
  result.take pos ++
    (if (result.drop pos).take 1 ≠ ['.'] then ['?', '.'] else ['?']) ++
    result.drop pos

/-- Descending insertion of `x` into an already-descending list. -/
def insertDesc (x : Nat) : List Nat → List Nat
  | [] => [x]
  | y :: ys => if y < x then x :: y :: ys else y :: insertDesc x ys

/-- `.sort((a, b) => b - a)`: sort a list of offsets in descending order. -/
def sortDesc (l : List Nat) : List Nat :=
  l.foldr insertDesc []

/-- The whole patch phase: sort the collected offsets descending, then fold
the splice step over them. -/
def patchApply (code : List Char) (positions : List Nat) : List Char :=
  (sortDesc positions).foldl applyInsertion code

/-- Modelled from the spec (§4.4) for the C1 refinement comparison: "for
each offset in that order, inspect the single character at that position in
the text as mutated so far: if it is already `.`, insert `?` immediately
before it (producing `?.`); otherwise insert `?.`". -/
def specPatchStep (text : List Char) (pos : Nat) : List Char :=
  match text[pos]? with
  | some c =>
    if c = '.' then text.take pos ++ '?' :: text.drop pos
    else text.take pos ++ '?' :: '.' :: text.drop pos
  | none => text.take pos ++ '?' :: '.' :: text.drop pos

/-! ## Fixed-Point Driver (index.js lines 320–340)

```
let previousCode = '';
let iteration = 1;
code = cleanCode;
while (iteration <= state.config.maxIterations && code !== previousCode) {
  previousCode = code;
  const result = await addOptionalChaining(code, filePath, state);
  code = result.code;
  if (code === previousCode) { ...; break; }
  hasChanges = true;
  iteration++;
}
```

One full parse–classify–decide–patch pass is abstracted as a function
`f : List Char → List Char` (the pass is a deterministic pure transform of
the text).  `fuel` stands for `maxIterations + 1 - iteration`, so the loop
guard `iteration <= maxIterations` is `fuel ≠ 0`. -/

/-- Outcome of the driver loop: final text, number of passes executed, and
whether the loop stopped because the text stopped changing (`converged`);
`converged = false` means the iteration cap was hit. -/
structure LoopResult where
  code : List Char
  passes : Nat
  converged : Bool
deriving DecidableEq

/-- The `while` loop.  The `code = prev` test at the head is reachable only
on entry (with `prev = ''`); inside the loop the `break` handles the
fixed-point exit. -/
def driverGo (f : List Char → List Char) : Nat → List Char → List Char → Nat → LoopResult
  | 0, _, code, passes => ⟨code, passes, false⟩
  | Nat.succ fuel, prev, code, passes =>
    if code = prev then ⟨code, passes, true⟩
    else if f code = code then ⟨f code, passes + 1, true⟩
    else driverGo f fuel code (f code) (passes + 1)

/-- The driver on a cleaned file text: `previousCode = ''`, `iteration = 1`. -/
def runDriver (f : List Char → List Char) (maxIterations : Nat) (clean : List Char) : LoopResult :=
  driverGo f maxIterations [] clean 0

/-- `DEFAULT_CONFIG` (index.js lines 9–22), restricted to the field the
driver reads. -/
structure Config where
  maxIterations : Nat
deriving DecidableEq

/-- `maxIterations: 5` (index.js line 10). -/
def defaultConfig : Config := ⟨5⟩

/-! ## Member-Access Decision Engine (index.js lines 138–280)

The `MemberExpression` visitor body of `addOptionalChaining`.  The parser
and traversal are external: a program reaches the visitor as a list of
member-expression occurrences (the node, plus its ancestor chain innermost
first) together with a scope query `name → Option Binding`. -/

/-- The initializer node types the visitor distinguishes
(`binding.path.node.init.type`, index.js lines 174–180). -/
inductive InitType where
  | stringLiteral
  | numericLiteral
  | booleanLiteral
  | objectExpression
  | arrayExpression
  | callExpression
  | newExpression
  | memberInit
  | identInit
  | otherInit
deriving DecidableEq

/-- The facts about `path.scope.getBinding(name)` that the visitor reads:
`binding.path?.parentPath?.node?.type === 'CatchClause'`, the three
`isImport*Specifier()` tests, `binding.path?.parent?.type` being an enum
declaration, `binding.constant`, `binding.path?.node?.init` (its type, when
present), and `binding.path?.node?.name` (which is `undefined` when the
binding path is a variable declarator, and the identifier text when the
binding path is e.g. a plain parameter identifier). -/
structure Binding where
  parentIsCatchClause : Bool
  isImport : Bool
  parentIsEnum : Bool
  constant : Bool
  initType : Option InitType
  nodeName : Option String
deriving DecidableEq

/-- Expression shapes the visitor inspects.  `member` carries the property
identifier's text (when the property is an identifier — used by the
`process.env` test), the property token's start offset (`property.start`,
absent when the parser supplies none), the `computed` flag and the
`optional` flag. -/
inductive Expr where
  | ident (name : String)
  | thisE
  | member (object : Expr) (propertyName : Option String)
      (propStart : Option Nat) (computed : Bool) (isOptional : Bool)
  | otherExpr
deriving DecidableEq

/-- AST node types the parent-chain walk and the `findParent` query test. -/
inductive NodeType where
  | tsTypeReference
  | tsQualifiedName
  | tsModuleDeclaration
  | tsNamespaceExportDeclaration
  | catchClause
  | assignmentExpression
  | callExpression
  | updateExpression
  | objectPattern
  | classProperty
  | classPrivateProperty
  | classMethod
  | classPrivateMethod
  | memberExpression
  | variableDeclarator
  | variableDeclaration
  | expressionStatement
  | program
  | otherType
deriving DecidableEq

/-- One ancestor of the visited node, innermost first: its node type, and
whether the path child hanging below it is its `left` (for
`AssignmentExpression`) or its `callee` (for `CallExpression`). -/
structure AncestorEntry where
  type : NodeType
  childIsLeft : Bool
  childIsCallee : Bool
deriving DecidableEq

/-- The scope/binding query the parser exposes. -/
def Scope := String → Option Binding

/-- `['StringLiteral', 'NumericLiteral', 'BooleanLiteral',
'ObjectExpression', 'ArrayExpression'].includes(init.type)`
(index.js lines 176–177), guarded by `binding.path?.node?.init` existing. -/
def bindingInitIsLiteral (b : Binding) : Bool :=
  match b.initType with
  | some InitType.stringLiteral => true
  | some InitType.numericLiteral => true
  | some InitType.booleanLiteral => true
  | some InitType.objectExpression => true
  | some InitType.arrayExpression => true
  | _ => false

/-- The binding checks of the identifier block (index.js lines 156–186),
run when `path.scope.getBinding(name)` returned a binding: catch-clause
parameters, imported bindings, enum declarations, constants with
literal-like initializers, and a skip-listed binding name. -/
def bindingSkips (st : SkipState) (b : Binding) : Bool :=
  if b.parentIsCatchClause then true
  else if b.isImport then true
  else if b.parentIsEnum then true
  else if b.constant && bindingInitIsLiteral b then true
  else shouldSkip st b.nodeName

/-- The identifier block (index.js lines 145–187): when the receiver is an
identifier, skip `process`, skip names the policy skips, then run the
binding checks. -/
def identBlockSkips (st : SkipState) (scope : Scope) (obj : Expr) : Bool :=
  match obj with
  | Expr.ident name =>
    if name = "process" || shouldSkip st (some name) then true
    else
      match scope name with
      | some b => bindingSkips st b
      | none => false
  | _ => false

/-- `['TSTypeReference', 'TSQualifiedName', 'TSModuleDeclaration',
'TSNamespaceExportDeclaration'].includes(parentNode.type)` (lines 198–199). -/
def isTsTypeContext : NodeType → Bool
  | NodeType.tsTypeReference => true
  | NodeType.tsQualifiedName => true
  | NodeType.tsModuleDeclaration => true
  | NodeType.tsNamespaceExportDeclaration => true
  | _ => false

/-- `['ClassProperty', 'ClassPrivateProperty', 'ClassMethod',
'ClassPrivateMethod']` membership (lines 220–221 and 240–242). -/
def isClassMemberType : NodeType → Bool
  | NodeType.classProperty => true
  | NodeType.classPrivateProperty => true
  | NodeType.classMethod => true
  | NodeType.classPrivateMethod => true
  | _ => false

/-- The parent-chain walk (index.js lines 190–229): climb the ancestors,
stopping with `skipChaining = true` on type-only constructs, catch
clauses, assignment targets / callee positions / update operands,
destructuring patterns and class members. -/
def parentChainSkips : List AncestorEntry → Bool
  | [] => false
  | a :: rest =>
    if isTsTypeContext a.type then true
    else if a.type = NodeType.catchClause then true
    else if (a.type = NodeType.assignmentExpression ∧ a.childIsLeft = true) ∨
            (a.type = NodeType.callExpression ∧ a.childIsCallee = true) ∨
            a.type = NodeType.updateExpression then true
    else if a.type = NodeType.objectPattern ∨ isClassMemberType a.type = true then true
    else parentChainSkips rest

/-- The `process.env` test (index.js lines 232–236): the receiver is itself
a member expression whose object is the identifier `process` and whose
property is named `env`. -/
def processEnvSkips (obj : Expr) : Bool :=
  match obj with
  | Expr.member (Expr.ident n) p _ _ _ =>
    decide (n = "process") && decide (p = some "env")
  | _ => false

/-- The `this` test (index.js lines 239–245): a `this` receiver inside a
class member (`findParent` over the ancestors). -/
def thisSkips (obj : Expr) (ancestors : List AncestorEntry) : Bool :=
  match obj with
  | Expr.thisE => ancestors.any (fun a => isClassMemberType a.type)
  | _ => false

/-- The enum-access walk (index.js lines 248–263): starting from the
receiver, walk nested member expressions; if any of their objects is an
identifier whose binding's parent is an enum declaration, skip. -/
def enumWalkSkips (scope : Scope) : Expr → Bool
  | Expr.member o _ _ _ _ =>
    (match o with
     | Expr.ident n =>
       (match scope n with
        | some b => b.parentIsEnum
        | none => false)
     | _ => false) || enumWalkSkips scope o
  | _ => false

/-- The whole visitor body: `none` when the node is skipped, otherwise the
offset added to `insertPositions`, namely `path.node.property.start - 1`
(index.js lines 266–267).  A non-member node is never visited.  The model
always has a receiver, so `!path.node.object` never fires. -/
def visitMember (st : SkipState) (scope : Scope) (node : Expr)
    (ancestors : List AncestorEntry) : Option Nat :=
  match node with
  | Expr.member obj _ propStart _ isOpt =>
    if isOpt then none
    else if identBlockSkips st scope obj then none
    else if parentChainSkips ancestors then none
    else if processEnvSkips obj then none
    else if thisSkips obj ancestors then none
    else if enumWalkSkips scope obj then none
    else
      match propStart with
      | some s => some (s - 1)
      | none => none
  | _ => none

/-- A member-expression occurrence as the traversal delivers it. -/
structure Occurrence where
  node : Expr
  ancestors : List AncestorEntry

/-- `Set.add`: a JS `Set` keeps insertion order and drops duplicates. -/
def setAdd {α : Type} [DecidableEq α] (s : List α) (x : α) : List α :=
  if x ∈ s then s else s ++ [x]

/-- `new Set(list)`. -/
def jsSetOf {α : Type} [DecidableEq α] (l : List α) : List α :=
  l.foldl setAdd []

/-- `insertPositions` after the traversal: every visitor result, collected
into the set. -/
def collectPositions (st : SkipState) (scope : Scope) (occs : List Occurrence) : List Nat :=
  occs.foldl (fun s o =>
    match visitMember st scope o.node o.ancestors with
    | some p => setAdd s p
    | none => s) []

/-- One full `addOptionalChaining` pass on a program whose parse is given
by `scope` and `occs`: collect the offsets, then run the Patch Applier. -/
def chainsafePass (st : SkipState) (scope : Scope) (occs : List Occurrence)
    (text : List Char) : List Char :=
  patchApply text (collectPositions st scope occs)

/-! ## Configuration phase of `main` (index.js lines 387–468)

Everything `main` does before the first file-system access
(`fs.stat(inputPath)` at line 471).  A JS `process.exit(1)` in this phase
is an `Except.error`. -/

/-- How the pre-file phase of `main` can end: print help, print the skip
list, or proceed to file processing with a policy state and the `--type`
argument. -/
inductive MainOutcome where
  | help
  | skipList
  | proceed (st : SkipState) (fileType : Option String)
deriving DecidableEq

instance {ε α : Type} [DecidableEq ε] [DecidableEq α] : DecidableEq (Except ε α) := fun x y =>
  match x, y with
  | Except.ok a, Except.ok b =>
    if h : a = b then isTrue (by rw [h])
    else isFalse (by intro hc; cases hc; exact h rfl)
  | Except.error a, Except.error b =>
    if h : a = b then isTrue (by rw [h])
    else isFalse (by intro hc; cases hc; exact h rfl)
  | Except.ok _, Except.error _ => isFalse (by intro hc; cases hc)
  | Except.error _, Except.ok _ => isFalse (by intro hc; cases hc)

/-- `input.split(',')` on the character list. -/
def splitOnComma : List Char → List (List Char)
  | [] => [[]]
  | c :: cs =>
    match splitOnComma cs with
    | [] => [[c]]
    | w :: ws => if c = ',' then [] :: w :: ws else (c :: w) :: ws

/-- `name.trim()`: drop whitespace at both ends. -/
def trimChars (l : List Char) : List Char :=
  ((l.dropWhile Char.isWhitespace).reverse.dropWhile Char.isWhitespace).reverse

/-- `parseNames` (index.js lines 387–389): split on commas, trim, drop
empties (`filter(Boolean)`); the empty (falsy) input gives the empty
list. -/
def parseNames (input : String) : List String :=
  if input = "" then []
  else ((splitOnComma input.data).map (fun w => String.mk (trimChars w))).filter
    (fun s => s != "")

/-- First character of `/^[a-zA-Z_$][a-zA-Z0-9_$]*$/`. -/
def isIdentStartChar (c : Char) : Bool :=
  c.isAlpha || c == '_' || c == '$'

/-- Later characters of the identifier pattern. -/
def isIdentTailChar (c : Char) : Bool :=
  isIdentStartChar c || c.isDigit

/-- One name matches `/^[a-zA-Z_$][a-zA-Z0-9_$]*$/`. -/
def validName (s : String) : Bool :=
  match s.data with
  | [] => false
  | c :: rest => isIdentStartChar c && rest.all isIdentTailChar

/-- `validateNames` (index.js lines 391–393). -/
def validateNames (names : List String) : Bool :=
  names.all validName

/-- `parseOption` (index.js lines 395–406): find the flag, read the next
argument (absent or empty ⇒ `null`, i.e. `none`), parse and validate the
names; invalid names exit the process. -/
def parseOption (args : List String) (flag : String) (errorMsg : String) :
    Except String (Option (List String)) :=
  match args.findIdx? (fun a => a == flag) with
  | none => Except.ok none
  | some i =>
    match args[i + 1]? with
    | none => Except.ok none
    | some nxt =>
      if nxt = "" then Except.ok none
      else
        let names := parseNames nxt
        if validateNames names then Except.ok (some names) else Except.error errorMsg

/-- The `--type` argument: `typeIndex !== -1 ? args[typeIndex + 1] : null`
(index.js lines 456–457). -/
def typeArg (args : List String) : Option String :=
  match args.findIdx? (fun a => a == "--type") with
  | some i => args[i + 1]?
  | none => none

/-- The `--type` validation (index.js lines 459–462): a non-empty value
outside `ts`/`js` exits, anything else proceeds. -/
def finishType (args : List String) (st : SkipState) : Except String MainOutcome :=
  match typeArg args with
  | some t =>
    if t ≠ "" ∧ t ≠ "ts" ∧ t ≠ "js" then
      Except.error "Invalid file type. Use --type ts or --type js"
    else Except.ok (MainOutcome.proceed st (some t))
  | none => Except.ok (MainOutcome.proceed st none)

/-- The exclusivity check (index.js lines 451–454), then the `--type`
handling. -/
def exclusivityCheck (args : List String) (st : SkipState) : Except String MainOutcome :=
  if st.skipOnlySet ≠ [] ∧ st.applyOnlySet ≠ [] then
    Except.error "--skip-only and --apply-only cannot be used together"
  else finishType args st

/-- The `--apply-only` handling (index.js lines 446–449), then everything
after it. -/
def applyOnlyStage (args : List String) (st : SkipState) : Except String MainOutcome :=
  match parseOption args "--apply-only" "Invalid names provided for --apply-only" with
  | Except.error e => Except.error e
  | Except.ok (some ns) => exclusivityCheck args { st with applyOnlySet := jsSetOf ns }
  | Except.ok none => exclusivityCheck args st

/-- The `--skip-only` handling (index.js lines 440–444): it replaces the
skip-only set and clears the globals; then everything after it. -/
def skipOnlyStage (args : List String) (st : SkipState) : Except String MainOutcome :=
  match parseOption args "--skip-only" "Invalid names provided for --skip-only" with
  | Except.error e => Except.error e
  | Except.ok (some ns) =>
    applyOnlyStage args { st with skipOnlySet := jsSetOf ns, builtInGlobals := [] }
  | Except.ok none => applyOnlyStage args st

/-- The `--no-skip` handling (index.js lines 435–438): each name is
deleted from the globals; then everything after it. -/
def noSkipStage (args : List String) (st : SkipState) : Except String MainOutcome :=
  match parseOption args "--no-skip" "Invalid names provided for --no-skip" with
  | Except.error e => Except.error e
  | Except.ok (some ns) =>
    skipOnlyStage args
      { st with builtInGlobals :=
          ns.foldl (fun g n => g.filter (fun x => x != n)) st.builtInGlobals }
  | Except.ok none => skipOnlyStage args st

/-- The `--skip` handling (index.js lines 430–433): each name is added to
the globals; then everything after it. -/
def skipStage (args : List String) (st : SkipState) : Except String MainOutcome :=
  match parseOption args "--skip" "Invalid names provided for --skip" with
  | Except.error e => Except.error e
  | Except.ok (some ns) =>
    noSkipStage args { st with builtInGlobals := ns.foldl setAdd st.builtInGlobals }
  | Except.ok none => noSkipStage args st

/-- The configuration phase of `main` (index.js lines 408–468), in source
order: help, `new State()`, `--skip-list`, `--skip-none`, `--skip`,
`--no-skip`, `--skip-only`, `--apply-only`, the exclusivity check, and
`--type`. -/
def mainConfig (args : List String) : Except String MainOutcome :=
  if args = [] ∨ "--help" ∈ args then Except.ok MainOutcome.help
  else if "--skip-list" ∈ args then Except.ok MainOutcome.skipList
  else if "--skip-none" ∈ args then
    skipStage args { initialState with builtInGlobals := [] }
  else skipStage args initialState

/-! ## Concrete parses used by the scenario claims

Each block records what `@babel/parser`/`@babel/traverse` deliver for one
small program: the member-expression occurrences (node shape, property
token start offsets against the text, ancestor chain) and the scope map. -/

/-- The scope query of a program with no relevant bindings. -/
def emptyScope : Scope := fun _ => none

/-- §8 scenario input: `const user = getUser(); const name = user.profile.name;`. -/
def scenario7Text : List Char :=
  "const user = getUser(); const name = user.profile.name;".data

/-- The same text after guarding both accesses of the chain. -/
def scenario7Expected : List Char :=
  "const user = getUser(); const name = user?.profile?.name;".data

/-- The binding of `user`: a constant variable declarator whose initializer
is the call `getUser()`; a declarator node has no `.name` field. -/
def userBinding : Binding :=
  ⟨false, false, false, true, some InitType.callExpression, none⟩

/-- Scope of the scenario program: only `user` is bound. -/
def scenario7Scope : Scope :=
  fun n => if n = "user" then some userBinding else none

/-- The inner access `user.profile` (property token `profile` at offset 42). -/
def userProfileExpr : Expr :=
  Expr.member (Expr.ident "user") (some "profile") (some 42) false false

/-- The outer access `user.profile.name` (property token `name` at offset 50). -/
def userProfileNameExpr : Expr :=
  Expr.member userProfileExpr (some "name") (some 50) false false

/-- Ancestors of the outer access: the declarator `name = …`, its
declaration, the program. -/
def declAncestors : List AncestorEntry :=
  [⟨NodeType.variableDeclarator, false, false⟩,
   ⟨NodeType.variableDeclaration, false, false⟩,
   ⟨NodeType.program, false, false⟩]

/-- The two member-expression occurrences of the scenario program
(traversal enter order: outer, then inner). -/
def scenario7Occs : List Occurrence :=
  [⟨userProfileNameExpr, declAncestors⟩,
   ⟨userProfileExpr, ⟨NodeType.memberExpression, false, false⟩ :: declAncestors⟩]

/-- Ancestors of a bare expression-statement access. -/
def stmtAncestors : List AncestorEntry :=
  [⟨NodeType.expressionStatement, false, false⟩,
   ⟨NodeType.program, false, false⟩]

/-- The access `process.argv` of the program `process.argv;` (property
token `argv` at offset 8). -/
def processArgvExpr : Expr :=
  Expr.member (Expr.ident "process") (some "argv") (some 8) false false

/-- The access `foo.argv` of the program `foo.argv;` (property token
`argv` at offset 4). -/
def fooArgvExpr : Expr :=
  Expr.member (Expr.ident "foo") (some "argv") (some 4) false false

/-- The binding of `a` in `let a; …`: a non-constant-folding declarator
with no initializer, never reassigned. -/
def aBinding : Binding :=
  ⟨false, false, false, true, none, none⟩

/-- Scope of the computed-access programs: only `a` is bound. -/
def computedScope : Scope :=
  fun n => if n = "a" then some aBinding else none

/-- Program `let a; a[b];`: the computed access `a[b]`, key token `b` at
offset 9, opening bracket at offset 8. -/
def computedTightExpr : Expr :=
  Expr.member (Expr.ident "a") (some "b") (some 9) true false

/-- Program text `let a; a[b];`. -/
def computedTightText : List Char := "let a; a[b];".data

/-- Program `let a; a[ b];`: the same access with a space inside the
bracket, key token `b` at offset 10, opening bracket still at offset 8. -/
def computedSpacedExpr : Expr :=
  Expr.member (Expr.ident "a") (some "b") (some 10) true false

/-- Program text `let a; a[ b];`. -/
def computedSpacedText : List Char := "let a; a[ b];".data

/-! ## Helper lemmas -/

theorem mem_insertDesc {x a : Nat} : ∀ {l : List Nat}, a ∈ insertDesc x l ↔ a = x ∨ a ∈ l := by
  intro l
  induction l with
  | nil => simp [insertDesc]
  | cons y ys ih =>
    by_cases h : y < x
    · simp [insertDesc, h]
    · simp only [insertDesc, if_neg h, List.mem_cons, ih]
      tauto

theorem mem_sortDesc {a : Nat} : ∀ {l : List Nat}, a ∈ sortDesc l ↔ a ∈ l := by
  intro l
  induction l with
  | nil => simp [sortDesc]
  | cons y ys ih =>
    show a ∈ insertDesc y (sortDesc ys) ↔ _
    rw [mem_insertDesc]
    simp [ih]

theorem pairwise_gt_insertDesc {x : Nat} : ∀ {l : List Nat},
    l.Pairwise (· > ·) → x ∉ l → (insertDesc x l).Pairwise (· > ·) := by
  intro l
  induction l with
  | nil => intro _ _; simp [insertDesc]
  | cons y ys ih =>
    intro hp hx
    rcases List.pairwise_cons.mp hp with ⟨hy, hys⟩
    by_cases h : y < x
    · rw [insertDesc, if_pos h]
      refine List.pairwise_cons.mpr ⟨?_, hp⟩
      intro z hz
      rcases List.mem_cons.mp hz with rfl | hz
      · exact h
      · exact lt_trans (hy z hz) h
    · rw [insertDesc, if_neg h]
      refine List.pairwise_cons.mpr ⟨?_, ih hys (fun hc => hx (List.mem_cons_of_mem y hc))⟩
      intro z hz
      rcases mem_insertDesc.mp hz with rfl | hz
      · have hne : z ≠ y := fun hzy => hx (hzy ▸ List.mem_cons_self y ys)
        omega
      · exact hy z hz

theorem sortDesc_pairwise_gt : ∀ {l : List Nat}, l.Nodup → (sortDesc l).Pairwise (· > ·) := by
  intro l
  induction l with
  | nil => intro _; simp [sortDesc]
  | cons y ys ih =>
    intro hd
    rcases List.nodup_cons.mp hd with ⟨hy, hys⟩
    show (insertDesc y (sortDesc ys)).Pairwise (· > ·)
    exact pairwise_gt_insertDesc (ih hys) (fun hc => hy (mem_sortDesc.mp hc))

theorem applyInsertion_eq_specPatchStep (t : List Char) (p : Nat) :
    applyInsertion t p = specPatchStep t p := by
  have hget : t[p]? = (t.drop p).head? := by
    rw [show t[p]? = t[p + 0]? by rw [Nat.add_zero], ← List.getElem?_drop]
    cases t.drop p <;> simp
  rw [applyInsertion, specPatchStep, hget]
  cases h : t.drop p with
  | nil => simp [h]
  | cons c cs =>
    by_cases hc : c = '.'
    · subst hc; simp
    · simp [hc]

theorem foldl_applyInsertion_eq_spec : ∀ (l : List Nat) (t : List Char),
    l.foldl applyInsertion t = l.foldl specPatchStep t := by
  intro l
  induction l with
  | nil => intro t; rfl
  | cons p ps ih =>
    intro t
    show ps.foldl applyInsertion (applyInsertion t p) = _
    rw [applyInsertion_eq_specPatchStep, ih]
    rfl

theorem sublist_applyInsertion (t : List Char) (p : Nat) : t.Sublist (applyInsertion t p) := by
  conv_lhs => rw [← List.take_append_drop p t]
  rw [applyInsertion, List.append_assoc]
  exact (List.Sublist.refl _).append (List.sublist_append_right _ _)

theorem sublist_foldl_applyInsertion : ∀ (l : List Nat) (t : List Char),
    t.Sublist (l.foldl applyInsertion t) := by
  intro l
  induction l with
  | nil => intro t; exact List.Sublist.refl t
  | cons p ps ih =>
    intro t
    exact (sublist_applyInsertion t p).trans (ih (applyInsertion t p))

theorem driverGo_passes_le (f : List Char → List Char) :
    ∀ (fuel : Nat) (prev code : List Char) (passes : Nat),
      (driverGo f fuel prev code passes).passes ≤ passes + fuel := by
  intro fuel
  induction fuel with
  | zero => intro prev code passes; simp [driverGo]
  | succ n ih =>
    intro prev code passes
    by_cases h1 : code = prev
    · simp [driverGo, h1]
    · by_cases h2 : f code = code
      · simp [driverGo, h1, h2]
      · simp only [driverGo, if_neg h1, if_neg h2]
        have := ih code (f code) (passes + 1)
        omega

theorem driverGo_cap (f : List Char → List Char) :
    ∀ (fuel : Nat) (prev code : List Char) (passes : Nat),
      (driverGo f fuel prev code passes).converged = false →
      (driverGo f fuel prev code passes).passes = passes + fuel := by
  intro fuel
  induction fuel with
  | zero => intro prev code passes _; simp [driverGo]
  | succ n ih =>
    intro prev code passes hconv
    by_cases h1 : code = prev
    · simp [driverGo, h1] at hconv
    · by_cases h2 : f code = code
      · simp [driverGo, h1, h2] at hconv
      · simp only [driverGo, if_neg h1, if_neg h2] at hconv ⊢
        have := ih code (f code) (passes + 1) hconv
        omega

theorem driverGo_fix (f : List Char → List Char) :
    ∀ (fuel : Nat) (prev code : List Char) (passes : Nat),
      code = f prev →
      (driverGo f fuel prev code passes).converged = true →
      f (driverGo f fuel prev code passes).code = (driverGo f fuel prev code passes).code := by
  intro fuel
  induction fuel with
  | zero => intro prev code passes _ hconv; simp [driverGo] at hconv
  | succ n ih =>
    intro prev code passes hinv hconv
    by_cases h1 : code = prev
    · simp only [driverGo, if_pos h1]
      calc f code = f prev := by rw [h1]
        _ = code := hinv.symm
    · by_cases h2 : f code = code
      · simp only [driverGo, if_neg h1, if_pos h2]
        rw [h2]
        exact h2
      · simp only [driverGo, if_neg h1, if_neg h2] at hconv ⊢
        exact ih code (f code) (passes + 1) rfl hconv

theorem runDriver_fix (f : List Char → List Char) (maxIter : Nat) (clean : List Char)
    (h1 : (runDriver f maxIter clean).converged = true)
    (h2 : 1 ≤ (runDriver f maxIter clean).passes) :
    f (runDriver f maxIter clean).code = (runDriver f maxIter clean).code := by
  cases maxIter with
  | zero => simp [runDriver, driverGo] at h1
  | succ n =>
    by_cases hc : clean = []
    · subst hc
      simp [runDriver, driverGo] at h2
    · by_cases h3 : f clean = clean
      · simp only [runDriver, driverGo, if_neg hc, if_pos h3]
        rw [h3]
        exact h3
      · simp only [runDriver, driverGo, if_neg hc, if_neg h3] at h1 ⊢
        exact driverGo_fix f n clean (f clean) 1 rfl h1

theorem applyInsertion_length_ge (t : List Char) (p : Nat) :
    t.length + 1 ≤ (applyInsertion t p).length := by
  rw [applyInsertion]
  have h1 : (t.take p).length + (t.drop p).length = t.length := by
    rw [List.length_take, List.length_drop]
    omega
  by_cases h : (t.drop p).take 1 ≠ ['.'] <;> simp [h, List.length_append] <;> omega

theorem foldl_applyInsertion_length : ∀ (l : List Nat) (t : List Char),
    t.length + l.length ≤ (l.foldl applyInsertion t).length := by
  intro l
  induction l with
  | nil => intro t; simp
  | cons p ps ih =>
    intro t
    have ha := applyInsertion_length_ge t p
    have hb := ih (applyInsertion t p)
    simp only [List.foldl_cons, List.length_cons]
    omega

theorem sortDesc_eq_nil {l : List Nat} (h : sortDesc l = []) : l = [] := by
  cases l with
  | nil => rfl
  | cons x xs =>
    exfalso
    have hx : x ∈ sortDesc (x :: xs) := mem_sortDesc.mpr (List.mem_cons_self x xs)
    rw [h] at hx
    exact absurd hx (List.not_mem_nil x)

theorem patchApply_fix_positions {t : List Char} {pos : List Nat}
    (h : patchApply t pos = t) : pos = [] := by
  have hlen := foldl_applyInsertion_length (sortDesc pos) t
  rw [show (sortDesc pos).foldl applyInsertion t = patchApply t pos from rfl, h] at hlen
  have hz : (sortDesc pos).length = 0 := by omega
  exact sortDesc_eq_nil (List.length_eq_zero.mp hz)

theorem finishType_ok (args : List String) (s st : SkipState) (ft : Option String)
    (h : finishType args s = Except.ok (MainOutcome.proceed st ft)) : st = s := by
  rw [finishType] at h
  cases ht : typeArg args with
  | none =>
    rw [ht] at h
    injection h with h1
    injection h1 with h2 h3
    exact h2.symm
  | some t =>
    rw [ht] at h
    dsimp only at h
    by_cases hv : t ≠ "" ∧ t ≠ "ts" ∧ t ≠ "js"
    · rw [if_pos hv] at h
      exact Except.noConfusion h
    · rw [if_neg hv] at h
      injection h with h1
      injection h1 with h2 h3
      exact h2.symm

theorem exclusivityCheck_ok (args : List String) (s st : SkipState) (ft : Option String)
    (h : exclusivityCheck args s = Except.ok (MainOutcome.proceed st ft)) :
    st = s ∧ (s.skipOnlySet = [] ∨ s.applyOnlySet = []) := by
  rw [exclusivityCheck] at h
  by_cases hb : s.skipOnlySet ≠ [] ∧ s.applyOnlySet ≠ []
  · rw [if_pos hb] at h
    exact Except.noConfusion h
  · rw [if_neg hb] at h
    refine ⟨finishType_ok args s st ft h, ?_⟩
    rcases not_and_or.mp hb with h' | h'
    · exact Or.inl (not_not.mp h')
    · exact Or.inr (not_not.mp h')

theorem applyOnlyStage_ok (args : List String) (s st : SkipState) (ft : Option String)
    (h : applyOnlyStage args s = Except.ok (MainOutcome.proceed st ft)) :
    st.skipOnlySet = [] ∨ st.applyOnlySet = [] := by
  rw [applyOnlyStage] at h
  cases hp : parseOption args "--apply-only" "Invalid names provided for --apply-only" with
  | error e =>
    rw [hp] at h
    exact Except.noConfusion h
  | ok names =>
    rw [hp] at h
    cases names with
    | some ns =>
      obtain ⟨rfl, hd⟩ := exclusivityCheck_ok args _ st ft h
      exact hd
    | none =>
      obtain ⟨rfl, hd⟩ := exclusivityCheck_ok args _ st ft h
      exact hd

theorem skipOnlyStage_ok (args : List String) (s st : SkipState) (ft : Option String)
    (h : skipOnlyStage args s = Except.ok (MainOutcome.proceed st ft)) :
    st.skipOnlySet = [] ∨ st.applyOnlySet = [] := by
  rw [skipOnlyStage] at h
  cases hp : parseOption args "--skip-only" "Invalid names provided for --skip-only" with
  | error e =>
    rw [hp] at h
    exact Except.noConfusion h
  | ok names =>
    rw [hp] at h
    cases names with
    | some ns => exact applyOnlyStage_ok args _ st ft h
    | none => exact applyOnlyStage_ok args _ st ft h

theorem noSkipStage_ok (args : List String) (s st : SkipState) (ft : Option String)
    (h : noSkipStage args s = Except.ok (MainOutcome.proceed st ft)) :
    st.skipOnlySet = [] ∨ st.applyOnlySet = [] := by
  rw [noSkipStage] at h
  cases hp : parseOption args "--no-skip" "Invalid names provided for --no-skip" with
  | error e =>
    rw [hp] at h
    exact Except.noConfusion h
  | ok names =>
    rw [hp] at h
    cases names with
    | some ns => exact skipOnlyStage_ok args _ st ft h
    | none => exact skipOnlyStage_ok args _ st ft h

theorem skipStage_ok (args : List String) (s st : SkipState) (ft : Option String)
    (h : skipStage args s = Except.ok (MainOutcome.proceed st ft)) :
    st.skipOnlySet = [] ∨ st.applyOnlySet = [] := by
  rw [skipStage] at h
  cases hp : parseOption args "--skip" "Invalid names provided for --skip" with
  | error e =>
    rw [hp] at h
    exact Except.noConfusion h
  | ok names =>
    rw [hp] at h
    cases names with
    | some ns => exact noSkipStage_ok args _ st ft h
    | none => exact noSkipStage_ok args _ st ft h

theorem mainConfig_exclusive (args : List String) (st : SkipState) (ft : Option String)
    (h : mainConfig args = Except.ok (MainOutcome.proceed st ft)) :
    st.skipOnlySet = [] ∨ st.applyOnlySet = [] := by
  rw [mainConfig] at h
  by_cases h1 : args = [] ∨ "--help" ∈ args
  · rw [if_pos h1] at h
    injection h with h2
    exact MainOutcome.noConfusion h2
  · rw [if_neg h1] at h
    by_cases h2 : "--skip-list" ∈ args
    · rw [if_pos h2] at h
      injection h with h3
      exact MainOutcome.noConfusion h3
    · rw [if_neg h2] at h
      by_cases h3 : "--skip-none" ∈ args
      · rw [if_pos h3] at h
        exact skipStage_ok args _ st ft h
      · rw [if_neg h3] at h
        exact skipStage_ok args _ st ft h

/-! ## Claim theorems -/

/-- Claim C1: the Patch Applier, given the current text and the collected
set of insertion offsets, applies the distinct offsets in strictly
descending numeric order, and each step inspects the single character at
that position in the text as mutated so far: a `.` gets a `?` inserted
immediately before it, anything else gets `?.` inserted at that position
(the spec-worded step is `specPatchStep`). -/
theorem patchApplier_descending_specStep (code : List Char) (positions : List Nat)
    (h : positions.Nodup) :
    (sortDesc positions).Pairwise (· > ·) ∧
    (∀ x, x ∈ sortDesc positions ↔ x ∈ positions) ∧
    patchApply code positions = (sortDesc positions).foldl specPatchStep code :=
  ⟨sortDesc_pairwise_gt h, fun _ => mem_sortDesc, foldl_applyInsertion_eq_spec _ _⟩

/-- Witness for C1 at code `a.b[c]` with collected offsets `{1, 3}`. -/
theorem patchApplier_descending_specStep_witness :
    (sortDesc [1, 3]).Pairwise (· > ·) ∧
    patchApply "a.b[c]".data [1, 3] = (sortDesc [1, 3]).foldl specPatchStep "a.b[c]".data :=
  ⟨(patchApplier_descending_specStep "a.b[c]".data [1, 3] (by decide)).1,
   (patchApplier_descending_specStep "a.b[c]".data [1, 3] (by decide)).2.2⟩

/-- Claim C2: for every input text and every collected offset list, one
patch-application round only inserts characters: the input text is a
subsequence (`List.Sublist`) of the output, so no character is deleted or
reordered. -/
theorem patchApplier_only_insertions (code : List Char) (positions : List Nat) :
    code.Sublist (patchApply code positions) :=
  sublist_foldl_applyInsertion (sortDesc positions) code

/-- Claim C3: the Fixed-Point Driver runs at most the configured iteration
cap of full passes (and the default cap is 5); when it stops without
convergence it has run exactly the cap many passes (reaching the cap is a
normal result, not an error — the loop returns the final text); and as
soon as one pass returns text identical to its input, it stops right there
in the converged state. -/
theorem fixedPointDriver_cap (f : List Char → List Char) (maxIter : Nat) (clean : List Char) :
    defaultConfig.maxIterations = 5 ∧
    (runDriver f maxIter clean).passes ≤ maxIter ∧
    ((runDriver f maxIter clean).converged = false →
      (runDriver f maxIter clean).passes = maxIter) ∧
    ((runDriver f maxIter clean).converged = true →
      1 ≤ (runDriver f maxIter clean).passes →
      f (runDriver f maxIter clean).code = (runDriver f maxIter clean).code) ∧
    (f clean = clean → clean ≠ [] → 1 ≤ maxIter →
      runDriver f maxIter clean = ⟨clean, 1, true⟩) := by
  refine ⟨rfl, ?_, ?_, ?_, ?_⟩
  · have h := driverGo_passes_le f maxIter [] clean 0
    simpa [runDriver] using h
  · intro hc
    have h := driverGo_cap f maxIter [] clean 0 hc
    simpa [runDriver] using h
  · exact runDriver_fix f maxIter clean
  · intro hf hne hm
    cases maxIter with
    | zero => omega
    | succ n =>
      show driverGo f (n + 1) [] clean 0 = ⟨clean, 1, true⟩
      simp only [driverGo, if_neg hne, if_pos hf]
      rw [hf]

/-- Witness for C3: the identity pass on `a` converges after one pass; a
pass that always prepends a character runs the full default cap of 5
passes. -/
theorem fixedPointDriver_cap_witness :
    runDriver (fun t => t) 5 ['a'] = ⟨['a'], 1, true⟩ ∧
    (runDriver (fun t => '?' :: t) 5 ['a']).passes = 5 :=
  ⟨(fixedPointDriver_cap (fun t => t) 5 ['a']).2.2.2.2 rfl (by decide) (by omega),
   (fixedPointDriver_cap (fun t => '?' :: t) 5 ['a']).2.2.1 (by decide)⟩

/-- Claim C4: for every identifier name (identifier names are non-empty),
`shouldSkip` is membership-complement of the apply-only set when that set
is non-empty; otherwise membership of the skip-only set when that is
non-empty; otherwise membership of the state's built-in-globals set. -/
theorem shouldSkip_policy_modes (st : SkipState) (n : String) (hn : n ≠ "") :
    (st.applyOnlySet ≠ [] → (shouldSkip st (some n) = true ↔ n ∉ st.applyOnlySet)) ∧
    (st.applyOnlySet = [] → st.skipOnlySet ≠ [] →
      (shouldSkip st (some n) = true ↔ n ∈ st.skipOnlySet)) ∧
    (st.applyOnlySet = [] → st.skipOnlySet = [] →
      (shouldSkip st (some n) = true ↔ n ∈ st.builtInGlobals)) := by
  refine ⟨?_, ?_, ?_⟩
  · intro ha
    simp [shouldSkip, hn, ha]
  · intro ha hs
    simp [shouldSkip, hn, ha, hs]
  · intro ha hs
    simp [shouldSkip, hn, ha, hs]

/-- Witness for C4: one concrete state per policy mode. -/
theorem shouldSkip_policy_modes_witness :
    (shouldSkip ⟨[], ["axios"], []⟩ (some "fetch") = true ↔
      "fetch" ∉ (["axios"] : List String)) ∧
    (shouldSkip ⟨[], [], ["axios"]⟩ (some "axios") = true ↔
      "axios" ∈ (["axios"] : List String)) ∧
    (shouldSkip initialState (some "Math") = true ↔
      "Math" ∈ initialState.builtInGlobals) :=
  ⟨(shouldSkip_policy_modes ⟨[], ["axios"], []⟩ "fetch" (by decide)).1 (by decide),
   (shouldSkip_policy_modes ⟨[], [], ["axios"]⟩ "axios" (by decide)).2.1 rfl (by decide),
   (shouldSkip_policy_modes initialState "Math" (by decide)).2.2 rfl rfl⟩

/-- Claim C5 counterexample: `--skip-none` together with `--apply-only foo`
is NOT rejected — the configuration phase of `main` completes without any
`process.exit(1)` and proceeds towards file processing with the globals
cleared and the apply-only list in force. -/
theorem policyExclusivity_skipNone_counterexample :
    mainConfig ["src", "--skip-none", "--apply-only", "foo"] =
      Except.ok (MainOutcome.proceed ⟨[], ["foo"], []⟩ none) := by decide

/-- Claim C5 amended: a configured apply-only list together with a
configured skip-only list is rejected before any file is read — no
proceeding outcome of the configuration phase carries both sets
non-empty. -/
theorem policyExclusivity_amended (args : List String) (st : SkipState) (ft : Option String)
    (h : mainConfig args = Except.ok (MainOutcome.proceed st ft)) :
    st.skipOnlySet = [] ∨ st.applyOnlySet = [] :=
  mainConfig_exclusive args st ft h

/-- Witness for the amended C5 at the plain invocation `chainsafe src`. -/
theorem policyExclusivity_amended_witness :
    initialState.skipOnlySet = [] ∨ initialState.applyOnlySet = [] :=
  policyExclusivity_amended ["src"] initialState none (by decide)

/-- Claim C6 counterexample: under skip-none the policy skips no name —
yet the Decision Engine exempts the access `process.argv` (visitor result
`none`) purely because its root identifier is named `process`, while the
structurally identical access `foo.argv` is guarded. -/
theorem skipNone_process_counterexample :
    shouldSkip skipNoneState (some "process") = false ∧
    visitMember skipNoneState emptyScope processArgvExpr stmtAncestors = none ∧
    visitMember skipNoneState emptyScope fooArgvExpr stmtAncestors = some 3 := by
  refine ⟨rfl, by decide, by decide⟩

/-- Claim C6 amended: under skip-none `shouldSkip` rejects no name at all,
and an access like `foo.argv` is rewrite-eligible — but the engine
hard-codes the root name `process` (index.js line 149), so `process.argv`
stays exempt even in skip-none mode. -/
theorem skipNone_amended :
    (∀ n : String, shouldSkip skipNoneState (some n) = false) ∧
    visitMember skipNoneState emptyScope fooArgvExpr stmtAncestors = some 3 ∧
    visitMember skipNoneState emptyScope processArgvExpr stmtAncestors = none := by
  refine ⟨?_, by decide, by decide⟩
  intro n
  by_cases hn : n = ""
  · simp [shouldSkip, hn]
  · simp [shouldSkip, skipNoneState, hn]

/-- Claim C7 counterexample: on
`const user = getUser(); const name = user.profile.name;` the pipeline
does NOT return the input unchanged. -/
theorem scenario7_counterexample :
    chainsafePass initialState scenario7Scope scenario7Occs scenario7Text ≠ scenario7Text := by
  decide

/-- Claim C7 amended: the current engine has no call-initializer
non-nullability classification; on the scenario input it collects the
offsets of both property tokens of the chain (49 and 41) and produces
`const user = getUser(); const name = user?.profile?.name;`. -/
theorem scenario7_amended :
    collectPositions initialState scenario7Scope scenario7Occs = [49, 41] ∧
    chainsafePass initialState scenario7Scope scenario7Occs scenario7Text =
      scenario7Expected := by
  refine ⟨by decide, by decide⟩

/-- Claim C8 evaluation: computed member access runs through the same
root-walk decision as dotted access (the visitor returns an offset for
`a[b]`, giving `a?.[b]`), but the offset is `property.start - 1`, not the
position of the opening bracket: on `let a; a[ b];` the bracket sits at
offset 8 while the engine emits offset 9, and patching yields the invalid
splice `let a; a[?. b];` instead of a guard before the bracket. -/
theorem computedOffset_bug_eval :
    visitMember initialState computedScope computedTightExpr stmtAncestors = some 8 ∧
    chainsafePass initialState computedScope [⟨computedTightExpr, stmtAncestors⟩]
      computedTightText = "let a; a?.[b];".data ∧
    computedSpacedText[8]? = some '[' ∧
    visitMember initialState computedScope computedSpacedExpr stmtAncestors = some 9 ∧
    chainsafePass initialState computedScope [⟨computedSpacedExpr, stmtAncestors⟩]
      computedSpacedText = "let a; a[?. b];".data := by
  refine ⟨by decide, by decide, by decide, by decide, by decide⟩

/-- Claim C9: when the driver converged (a full pass returned its input
unchanged — at least one pass ran), running the pipeline again on the
final text is a no-op: the pass collects zero insertion offsets and
returns the text unchanged.  `posF` abstracts the parse–classify–decide
stage: the offsets one pass collects from a given text. -/
theorem idempotence_at_convergence (posF : List Char → List Nat) (maxIter : Nat)
    (clean : List Char)
    (hconv : (runDriver (fun t => patchApply t (posF t)) maxIter clean).converged = true)
    (hpass : 1 ≤ (runDriver (fun t => patchApply t (posF t)) maxIter clean).passes) :
    patchApply (runDriver (fun t => patchApply t (posF t)) maxIter clean).code
        (posF (runDriver (fun t => patchApply t (posF t)) maxIter clean).code) =
      (runDriver (fun t => patchApply t (posF t)) maxIter clean).code ∧
    posF (runDriver (fun t => patchApply t (posF t)) maxIter clean).code = [] := by
  have hfix := runDriver_fix (fun t => patchApply t (posF t)) maxIter clean hconv hpass
  exact ⟨hfix, patchApply_fix_positions hfix⟩

/-- Witness for C9: a pass collecting no offsets converges on `a` after
one pass, and re-running it is a no-op. -/
theorem idempotence_at_convergence_witness :
    patchApply (runDriver (fun t => patchApply t []) 5 ['a']).code [] =
      (runDriver (fun t => patchApply t []) 5 ['a']).code :=
  (idempotence_at_convergence (fun _ => []) 5 ['a'] (by decide) (by decide)).1

/-- Claim C10: a falsy name — absent (`undefined`) or the empty string —
makes `shouldSkip` return `false` for every configuration, including
apply-only (allow-list) states where every name outside the list would
otherwise be skipped. -/
theorem shouldSkip_falsy (st : SkipState) :
    shouldSkip st none = false ∧ shouldSkip st (some "") = false ∧
    shouldSkip ⟨[], ["axios"], []⟩ (some "") = false := by
  refine ⟨rfl, ?_, by decide⟩
  simp [shouldSkip]

end Chainsafe
